import Mathlib

/-!
Verification of the QueryPilot ingestion and EDA-report pipeline.

The Python sources embedded here are `ai_data_analyst.py` (the function
`preprocess_and_save`) and `eda_helpers.py` (the function
`perform_full_analysis`).  DataFrames are modelled as lists of typed
columns; machine floats are modelled as rationals; pandas `NaN` is the
explicit `Cell.null`.
-/

namespace QueryPilot

/-- A single cell of a dataframe: pandas `NaN`/`NaT` is `null`; text cells
are `str`; numeric cells are rationals; datetimes carry an integer code. -/
inductive Cell where
  | null : Cell
  | str : String → Cell
  | num : ℚ → Cell
  | date : Int → Cell
deriving DecidableEq, Repr, Inhabited

/-- The pandas dtype of a column: `numeric` (np.number), `datetime`, or
`text` (the `object` dtype). -/
inductive ColType where
  | numeric : ColType
  | datetime : ColType
  | text : ColType
deriving DecidableEq, Repr, Inhabited

/-- One named, typed column of a dataframe. -/
structure Column where
  name : String
  ctype : ColType
  cells : List Cell
deriving DecidableEq, Repr, Inhabited

/-- An uploaded file, as `preprocess_and_save` sees it: its filename, its
byte length (`file.tell()` after seeking to the end), and the tabular
content a successful parse would produce. -/
structure UploadedFile where
  name : String
  sizeBytes : ℕ
  cols : List Column
deriving DecidableEq, Repr, Inhabited

/-- `len(df)`: the number of rows of a dataframe. -/
def nRows (cols : List Column) : ℕ :=
  match cols with
  | [] => 0
  | c :: _ => c.cells.length

/-- `pd.read_csv(..., nrows=n)`: keep only the first `n` rows. -/
def takeRows (n : ℕ) (cols : List Column) : List Column :=
  cols.map fun c => { c with cells := c.cells.take n }

/-- `startsList needle hay`: the needle is an initial segment of the hay. -/
def startsList : List Char → List Char → Bool
  | [], _ => true
  | _ :: _, [] => false
  | a :: as, b :: bs => a == b && startsList as bs

/-- Python `str.endswith`, on our explicit character lists. -/
def endsWithStr (s suffixStr : String) : Bool :=
  startsList suffixStr.data.reverse s.data.reverse

/-- Python `needle in hay` on strings: substring containment. -/
def containsSub (needle : List Char) : List Char → Bool
  | [] => startsList needle []
  | c :: cs => startsList needle (c :: cs) || containsSub needle cs

/-- Python `str.lower` for one character (ASCII, which is all the source
relies on for the substring test `'date' in col.lower()`). -/
def lowerChar (c : Char) : Char :=
  if 'A' ≤ c ∧ c ≤ 'Z' then Char.ofNat (c.toNat + 32) else c

/-- Python `str.lower` on the characters of a string. -/
def lowerChars (cs : List Char) : List Char := cs.map lowerChar

/-- Replace every `"` by `""` in a character list — the regex
`.replace({r'\"': '\"\"'}, regex=True)` applied by the preprocessing, and
also the escaping `csv.QUOTE_ALL` itself performs when writing. -/
def escQuotes : List Char → List Char
  | [] => []
  | c :: cs => if c = '"' then '"' :: '"' :: escQuotes cs else c :: escQuotes cs

/-- `escQuotes` packaged on strings. -/
def strEscQuotes (s : String) : String := ⟨ escQuotes s.data ⟩

/-- Decimal rendering of a rational, standing in for Python float/int
`str()` output. -/
def ratStr (q : ℚ) : String :=
  if q.den = 1 then toString q.num else toString q.num ++ "/" ++ toString q.den

/-- Python `str()` of one cell, as `df[col].astype(str)` produces it:
crucially, a missing value is rendered as the literal string `nan`. -/
def cellPyStr : Cell → String
  | Cell.null => "nan"
  | Cell.str s => s
  | Cell.num q => ratStr q
  | Cell.date d => toString d

/-- The first preprocessing loop (`ai_data_analyst.py` lines 61-62): every
`object`-dtype column is stringified (`astype(str)`) and embedded quotes
are doubled; other columns are untouched. -/
def escapeStep (c : Column) : Column :=
  if c.ctype = ColType.text then
    { c with cells := c.cells.map fun x => Cell.str (strEscQuotes (cellPyStr x)) }
  else c

/-- All-digit character runs give their decimal value. -/
def natVal (cs : List Char) : ℕ :=
  cs.foldl (fun a c => a * 10 + (c.toNat - 48)) 0

/-- Parse a run of digit characters, refusing empty or non-digit input. -/
def digitsVal (cs : List Char) : Option ℕ :=
  if cs ≠ [] ∧ cs.all Char.isDigit then some (natVal cs) else none

/-- Parse an unsigned decimal numeral (digits, optionally a single point
and fraction digits) as a rational. -/
def parseNonneg (cs : List Char) : Option ℚ :=
  let ip := cs.takeWhile Char.isDigit
  match cs.dropWhile Char.isDigit with
  | [] => if ip.isEmpty then none else some (natVal ip)
  | '.' :: frac =>
      if frac.all Char.isDigit ∧ ¬(ip.isEmpty ∧ frac.isEmpty) then
        some ((natVal ip : ℚ) + (natVal frac : ℚ) / (10 ^ frac.length))
      else none
  | _ => none

/-- Parse a signed decimal numeral as a rational. -/
def parseRatChars : List Char → Option ℚ
  | '-' :: rest => (parseNonneg rest).map fun q => -q
  | cs => parseNonneg cs

/-- `pd.to_numeric` on one cell: numbers pass through, `NaN` stays `NaN`,
a datetime yields its integer code, and a string must parse as a decimal
numeral (the string `nan` parses to `NaN`); anything else fails. -/
def toNumericCell : Cell → Option Cell
  | Cell.null => some Cell.null
  | Cell.num q => some (Cell.num q)
  | Cell.date d => some (Cell.num (d : ℚ))
  | Cell.str s =>
      if lowerChars s.data = [ 'n', 'a', 'n' ] then some Cell.null
      else (parseRatChars s.data).map Cell.num

/-- `pd.to_numeric` on a whole column: the coercion raises — and so yields
nothing — as soon as any single cell fails; it never returns a partially
coerced column. -/
def traverseNum : List Cell → Option (List Cell)
  | [] => some []
  | c :: cs =>
      match toNumericCell c, traverseNum cs with
      | some c2, some cs2 => some (c2 :: cs2)
      | _, _ => none

/-- Parse an ISO `YYYY-MM-DD` date into an integer code. -/
def parseDateChars (cs : List Char) : Option Int :=
  match (cs.splitOn '-').map digitsVal with
  | [ some y, some m, some d ] =>
      if 1 ≤ m ∧ m ≤ 12 ∧ 1 ≤ d ∧ d ≤ 31 then some (y * 10000 + m * 100 + d)
      else none
  | _ => none

/-- `pd.to_datetime(..., errors='coerce')` on one cell: unparseable cells
become `NaT` (null), never raise. -/
def toDatetimeCell : Cell → Cell
  | Cell.null => Cell.null
  | Cell.date d => Cell.date d
  | Cell.num q => Cell.date ⌊q⌋
  | Cell.str s =>
      match parseDateChars s.data with
      | some d => Cell.date d
      | none => Cell.null

/-- The characters of the probe substring `date`. -/
def dateProbe : List Char := [ 'd', 'a', 't', 'e' ]

/-- The second preprocessing loop (`ai_data_analyst.py` lines 65-72), per
column: a column whose lowercased name contains `date` is datetime-coerced
cell by cell; otherwise an `object` column attempts a full numeric
coercion and is left entirely unchanged when that raises; all other
columns pass through. -/
def coerceColumn (c : Column) : Column :=
  if containsSub dateProbe (lowerChars c.name.data) then
    { c with ctype := ColType.datetime, cells := c.cells.map toDatetimeCell }
  else if c.ctype = ColType.text then
    match traverseNum c.cells with
    | some cs => { c with ctype := ColType.numeric, cells := cs }
    | none => c
  else c

/-- The whole `if not is_large` preprocessing block: quote-escape every
text column, then date/numeric-coerce column by column. -/
def cleanColumns (cols : List Column) : List Column :=
  (cols.map escapeStep).map coerceColumn

/-- Quote one CSV field per `csv.QUOTE_ALL`: wrap in double quotes and
double every embedded quote. -/
def quoteFieldChars (s : String) : List Char :=
  '"' :: (escQuotes s.data ++ [ '"' ])

/-- One CSV record's fields, comma-separated, each fully quoted. -/
def fieldsChars : List String → List Char
  | [] => []
  | [ f ] => quoteFieldChars f
  | f :: fs => quoteFieldChars f ++ ',' :: fieldsChars fs

/-- A whole CSV text: each record is followed by a newline. -/
def csvChars : List (List String) → List Char
  | [] => []
  | r :: rs => fieldsChars r ++ '\n' :: csvChars rs

/-- The materialized CSV as a string. -/
def writeCsvString (rows : List (List String)) : String := ⟨ csvChars rows ⟩

/-- `df.to_csv` rendering of one cell: a missing value becomes the empty
field, everything else its string form. -/
def cellToCsvStr : Cell → String
  | Cell.null => ""
  | Cell.str s => s
  | Cell.num q => ratStr q
  | Cell.date d => toString d

/-- The dataframe's rows, rendered as CSV field strings in column order. -/
def tableRows (df : List Column) : List (List String) :=
  (List.range (nRows df)).map fun i =>
    df.map fun c => cellToCsvStr (c.cells.getD i Cell.null)

/-- `df.to_csv(temp_path, index=False, quoting=csv.QUOTE_ALL)`: header row
of column names followed by the data rows, every field quoted. -/
def writeCsvTable (df : List Column) : String :=
  writeCsvString ((df.map Column.name) :: tableRows df)

/-- The `dataset_info` dictionary built by `preprocess_and_save`. -/
structure DatasetProfile where
  row_count : ℕ
  col_count : ℕ
  file_size_mb : ℚ
  is_large : Bool
deriving DecidableEq, Repr, Inhabited

/-- The four-part result tuple `(temp_path, df.columns.tolist(), df,
dataset_info)`; the temporary file is represented by its contents. -/
structure IngestResult where
  temp_csv : String
  columns : List String
  table : List Column
  info : DatasetProfile
deriving DecidableEq, Repr, Inhabited

/-- The tail of `preprocess_and_save` after the dataframe `df` has been
read: optional cleaning (skipped when large), materialization, and the
metadata dictionary. -/
def finishIngest (df0 : List Column) (file_size_mb : ℚ) (is_large : Bool) :
    IngestResult :=
  let df := if is_large then df0 else cleanColumns df0
  { temp_csv := writeCsvTable df
    columns := df.map Column.name
    table := df
    info :=
      { row_count := nRows df
        col_count := df.length
        file_size_mb := file_size_mb
        is_large := is_large } }

/-- `preprocess_and_save` (`ai_data_analyst.py` lines 28-93): compute
`file_size_mb` from the byte length, classify large at the 50 MB
threshold, branch on the filename suffix (`.csv`: sample 1000 rows when
large; `.xlsx`: full parse then row-count re-classification at 10000;
anything else: no result), clean only when not large, materialize, and
return the result tuple. -/
def preprocess_and_save (f : UploadedFile) : Option IngestResult :=
  let file_size_mb : ℚ := (f.sizeBytes : ℚ) / (1024 * 1024)
  let is_large : Bool := decide (file_size_mb > 50)
  if endsWithStr f.name ".csv" then
    let df := if is_large then takeRows 1000 f.cols else f.cols
    some (finishIngest df file_size_mb is_large)
  else if endsWithStr f.name ".xlsx" then
    let is_large2 := is_large || decide (nRows f.cols > 10000)
    some (finishIngest f.cols file_size_mb is_large2)
  else
    none

/-! ### Reading the materialized CSV back

A small state machine scanning the quote-all CSV format: every field is
double-quoted, embedded quotes are doubled, records end in a newline. -/

/-- Scanner state: at the start of a field, inside a quoted field, or just
past a quote that may close the field. -/
inductive ScanSt where
  | start : ScanSt
  | inF : ScanSt
  | afterQ : ScanSt
deriving DecidableEq, Repr

/-- Scanner accumulator: the current field's characters, the current
record's finished fields, and the finished records. -/
structure ScanAcc where
  field : List Char
  row : List String
  rows : List (List String)
deriving DecidableEq, Repr

/-- One scanner transition on one character. -/
def scanStep (st : ScanSt) (acc : ScanAcc) (c : Char) : Option (ScanSt × ScanAcc) :=
  match st with
  | ScanSt.start => if c = '"' then some (ScanSt.inF, acc) else none
  | ScanSt.inF =>
      if c = '"' then some (ScanSt.afterQ, acc)
      else some (ScanSt.inF, { acc with field := acc.field ++ [ c ] })
  | ScanSt.afterQ =>
      if c = '"' then some (ScanSt.inF, { acc with field := acc.field ++ [ '"' ] })
      else if c = ',' then
        some (ScanSt.start, { acc with field := [], row := acc.row ++ [ ⟨ acc.field ⟩ ] })
      else if c = '\n' then
        some (ScanSt.start,
          { field := [], row := [], rows := acc.rows ++ [ acc.row ++ [ ⟨ acc.field ⟩ ] ] })
      else none

/-- Run the scanner over a character list. -/
def runScan (st : ScanSt) (acc : ScanAcc) : List Char → Option (ScanSt × ScanAcc)
  | [] => some (st, acc)
  | c :: cs =>
      match scanStep st acc c with
      | none => none
      | some (st2, acc2) => runScan st2 acc2 cs

/-- Parse a quote-all CSV text into its records; the text must consist of
complete records, each ending in a newline. -/
def parseCsv (s : String) : Option (List (List String)) :=
  match runScan ScanSt.start ⟨ [], [], [] ⟩ s.data with
  | some (ScanSt.start, acc) =>
      if acc.field.isEmpty && acc.row.isEmpty then some acc.rows else none
  | _ => none

/-! ### The EDA report (`eda_helpers.py`, `perform_full_analysis`) -/

/-- Number of null cells of a column (`df[col].isnull().sum()`). -/
def nullCount (c : Column) : ℕ :=
  c.cells.countP fun x => decide (x = Cell.null)

/-- Total null count across all columns (`df.isnull().sum().sum()`). -/
def totalNulls (df : List Column) : ℕ :=
  (df.map nullCount).sum

/-- `df.select_dtypes(include=[np.number]).columns`. -/
def numericCols (df : List Column) : List Column :=
  df.filter fun c => decide (c.ctype = ColType.numeric)

/-- `df.select_dtypes(include=['object']).columns`. -/
def categoricalCols (df : List Column) : List Column :=
  df.filter fun c => decide (c.ctype = ColType.text)

/-- Round-half-to-even on rationals, the rounding numpy and Python employ. -/
def roundHalfEven (x : ℚ) : ℤ :=
  let f := ⌊x⌋
  let r := x - (f : ℚ)
  if r < 1 / 2 then f
  else if 1 / 2 < r then f + 1
  else if f % 2 = 0 then f else f + 1

/-- `.round(2)`: round to two decimal places. -/
def roundTo2 (x : ℚ) : ℚ := (roundHalfEven (x * 100) : ℚ) / 100

/-- The dtype strings pandas prints for our three column kinds. -/
def dtypeStr : ColType → String
  | ColType.numeric => "float64"
  | ColType.datetime => "datetime64[ns]"
  | ColType.text => "object"

/-- One row of the report's column inventory (`eda_helpers.py` lines
27-33): name, dtype, non-null count, null count, and the null percentage
`(nulls / len(df) * 100).round(2)`. -/
structure ColInfoRow where
  column : String
  dtype : String
  nonNull : ℕ
  nulls : ℕ
  nullPct : ℚ
deriving DecidableEq, Repr

/-- Build one column-inventory row against a table of `n` rows. -/
def colInfoRow (n : ℕ) (c : Column) : ColInfoRow :=
  { column := c.name
    dtype := dtypeStr c.ctype
    nonNull := c.cells.length - nullCount c
    nulls := nullCount c
    nullPct := roundTo2 ((nullCount c : ℚ) / (n : ℚ) * 100) }

/-- The full column-inventory table of the report. -/
def colInfoRows (df : List Column) : List ColInfoRow :=
  df.map (colInfoRow (nRows df))

/-- The report's sections, as tags in rendering order. -/
inductive ReportSection where
  | overview : ReportSection
  | columnInfo : ReportSection
  | missingChart : ReportSection
  | numericStats : ReportSection
  | distributions : ReportSection
  | corrHeatmap : ReportSection
  | categorical : ReportSection
  | qualitySummary : ReportSection
deriving DecidableEq, Repr

/-- `perform_full_analysis` as the ordered list of sections it renders:
overview and column inventory always; the missing-value chart only when
the total null count is positive; numeric statistics and distribution
plots when a numeric column exists, with the correlation heatmap nested
under a strictly-more-than-one numeric column test; categorical analysis
when an `object` column exists; the quality summary always. -/
def reportSections (df : List Column) (info : DatasetProfile) : List ReportSection :=
  [ ReportSection.overview, ReportSection.columnInfo ]
    ++ (if 0 < totalNulls df then [ ReportSection.missingChart ] else [])
    ++ (if numericCols df ≠ [] then
          [ ReportSection.numericStats, ReportSection.distributions ]
            ++ (if 1 < (numericCols df).length then [ ReportSection.corrHeatmap ] else [])
        else [])
    ++ (if categoricalCols df ≠ [] then [ ReportSection.categorical ] else [])
    ++ [ ReportSection.qualitySummary ]

/-! ### Concrete inputs used by the witnesses -/

/-- A 52428801-byte (just over 50 MB) CSV upload parsing to 1200 rows. -/
def wfile1 : UploadedFile :=
  { name := "big.csv", sizeBytes := 52428801,
    cols := [ { name := "a", ctype := ColType.text,
                cells := List.replicate 1200 Cell.null } ] }

/-- A small CSV upload whose text column holds a quote, a comma and a
missing value — the characters the quoting convention must survive. -/
def wfile2 : UploadedFile :=
  { name := "t.csv", sizeBytes := 10,
    cols := [ { name := "col1", ctype := ColType.text,
                cells := [ Cell.str "a\"b", Cell.str "c,d", Cell.null ] } ] }

/-- The ingestion result for `wfile2`. -/
def wres2 : IngestResult := (preprocess_and_save wfile2).getD default

/-- A small-by-bytes spreadsheet upload parsing to 10001 rows. -/
def wfile3 : UploadedFile :=
  { name := "data.xlsx", sizeBytes := 1000,
    cols := [ { name := "a", ctype := ColType.numeric,
                cells := List.replicate 10001 (Cell.num 0) } ] }

/-- An upload with an unsupported extension. -/
def wfile4 : UploadedFile :=
  { name := "data.json", sizeBytes := 1000,
    cols := [ { name := "a", ctype := ColType.text, cells := [ Cell.str "x" ] } ] }

/-- A small CSV upload with a text column numeric coercion must reject. -/
def wfile8 : UploadedFile :=
  { name := "t.csv", sizeBytes := 20,
    cols := [ { name := "label", ctype := ColType.text,
                cells := [ Cell.str "abc", Cell.str "1" ] } ] }

/-- The ingestion result for `wfile8`. -/
def wres8 : IngestResult := (preprocess_and_save wfile8).getD default

/-- A small CSV upload with a null in a text column and a null in a
numeric column. -/
def wfile9 : UploadedFile :=
  { name := "t.csv", sizeBytes := 20,
    cols := [ { name := "a", ctype := ColType.text,
                cells := [ Cell.null, Cell.str "x" ] },
              { name := "b", ctype := ColType.numeric,
                cells := [ Cell.num 1, Cell.null ] } ] }

/-- The ingestion result for `wfile9`. -/
def wres9 : IngestResult := (preprocess_and_save wfile9).getD default

/-- A 52428801-byte (just over 50 MB) spreadsheet upload parsing to only
3 rows. -/
def wfile10 : UploadedFile :=
  { name := "big.xlsx", sizeBytes := 52428801,
    cols := [ { name := "name", ctype := ColType.text,
                cells := [ Cell.str "x", Cell.str "y", Cell.str "z" ] },
              { name := "v", ctype := ColType.numeric,
                cells := [ Cell.num 1, Cell.num 2, Cell.null ] } ] }

/-- A one-column table with two nulls out of four rows, for the
column-inventory witness. -/
def wcol5 : Column :=
  { name := "x", ctype := ColType.numeric,
    cells := [ Cell.num 1, Cell.null, Cell.num 2, Cell.null ] }

/-- The table holding `wcol5`. -/
def wdf5 : List Column := [ wcol5 ]

/-- The quote-escaped form of `wfile8`'s text column. -/
def wcol8 : Column :=
  { name := "label", ctype := ColType.text,
    cells := [ Cell.str "abc", Cell.str "1" ] }

/-! ### Helper lemmas about the ingestion routine -/

attribute [local semireducible] Rat.add Rat.sub Rat.mul Rat.inv Rat.ofScientific

/-- The 50 MB byte-size test, in terms of the raw byte count. -/
theorem large_decide_iff (n : ℕ) :
    ((n : ℚ) / (1024 * 1024) > 50) ↔ 52428800 < n := by
  rw [gt_iff_lt, lt_div_iff₀ (by norm_num : (0 : ℚ) < 1024 * 1024)]
  have h : (50 : ℚ) * (1024 * 1024) = ((52428800 : ℕ) : ℚ) := by norm_num
  rw [h, Nat.cast_lt]

/-- Row count after the 1000-row sampling. -/
theorem nRows_takeRows (cols : List Column) :
    nRows (takeRows 1000 cols) = min 1000 (nRows cols) := by
  cases cols <;> simp [nRows, takeRows, List.length_take]

/-! ### Claim theorems -/

/-- Claim C1: for every uploaded CSV file whose byte length exceeds 50 MB,
`preprocess_and_save` returns a profile with `is_large = true` and an
in-memory table capped at exactly 1000 rows regardless of the file's true
row count (the table holds `min 1000 N` rows when the file parses to `N`
rows). -/
theorem C1_large_csv_capped (f : UploadedFile)
    (hcsv : endsWithStr f.name ".csv" = true)
    (hsize : 52428800 < f.sizeBytes) :
    ∃ r, preprocess_and_save f = some r ∧ r.info.is_large = true ∧
      nRows r.table = min 1000 (nRows f.cols) := by
  have hL : decide ((f.sizeBytes : ℚ) / (1024 * 1024) > 50) = true := by
    rw [decide_eq_true_eq]
    exact (large_decide_iff _).mpr hsize
  refine ⟨ finishIngest (takeRows 1000 f.cols) ((f.sizeBytes : ℚ) / (1024 * 1024)) true,
    ?_, rfl, nRows_takeRows f.cols ⟩
  simp [preprocess_and_save, hcsv, hL]

/-- Witness for C1: a 52428801-byte CSV parsing to 1200 rows. -/
theorem C1_witness :
    endsWithStr wfile1.name ".csv" = true ∧ 52428800 < wfile1.sizeBytes ∧
      ∃ r, preprocess_and_save wfile1 = some r ∧ r.info.is_large = true ∧
        nRows r.table = min 1000 (nRows wfile1.cols) :=
  ⟨ by decide, by decide, C1_large_csv_capped wfile1 (by decide) (by decide) ⟩

/-- Running the scanner over concatenated input runs it in sequence. -/
theorem runScan_append (st : ScanSt) (acc : ScanAcc) (l1 l2 : List Char) :
    runScan st acc (l1 ++ l2) =
      match runScan st acc l1 with
      | none => none
      | some (st2, acc2) => runScan st2 acc2 l2 := by
  induction l1 generalizing st acc with
  | nil => simp [runScan]
  | cons c cs ih =>
      simp only [List.cons_append, runScan]
      cases h : scanStep st acc c with
      | none => simp
      | some p => exact ih p.1 p.2

/-- Scanning an escaped field body followed by the closing quote lands in
the after-quote state with the unescaped body accumulated. -/
theorem runScan_escQuotes (f : List Char) (p : List Char) (r : List String)
    (rs : List (List String)) (rest : List Char) :
    runScan ScanSt.inF ⟨ p, r, rs ⟩ (escQuotes f ++ '"' :: rest) =
      runScan ScanSt.afterQ ⟨ p ++ f, r, rs ⟩ rest := by
  induction f generalizing p with
  | nil => simp [escQuotes, runScan, scanStep]
  | cons c cs ih =>
      by_cases hc : c = '"'
      · subst hc
        have h1 : runScan ScanSt.inF ⟨ p, r, rs ⟩
              ('"' :: '"' :: (escQuotes cs ++ '"' :: rest)) =
            runScan ScanSt.inF ⟨ p ++ [ '"' ], r, rs ⟩ (escQuotes cs ++ '"' :: rest) := rfl
        rw [show escQuotes ('"' :: cs) = '"' :: '"' :: escQuotes cs from rfl]
        rw [List.cons_append, List.cons_append, h1, ih]
        rw [List.append_assoc]
        rfl
      · rw [show escQuotes (c :: cs) = c :: escQuotes cs from by
          simp [escQuotes, hc]]
        rw [List.cons_append]
        have h1 : runScan ScanSt.inF ⟨ p, r, rs ⟩ (c :: (escQuotes cs ++ '"' :: rest)) =
            runScan ScanSt.inF ⟨ p ++ [ c ], r, rs ⟩ (escQuotes cs ++ '"' :: rest) := by
          simp [runScan, scanStep, hc]
        rw [h1, ih]
        rw [List.append_assoc]
        rfl

/-- Scanning one fully quoted field from the start state accumulates
exactly that field's characters. -/
theorem runScan_quoteField (f : String) (r : List String)
    (rs : List (List String)) (rest : List Char) :
    runScan ScanSt.start ⟨ [], r, rs ⟩ (quoteFieldChars f ++ rest) =
      runScan ScanSt.afterQ ⟨ f.data, r, rs ⟩ rest := by
  rw [show quoteFieldChars f ++ rest =
      '"' :: (escQuotes f.data ++ ('"' :: rest)) from by
    simp [quoteFieldChars, List.append_assoc]]
  have h1 : runScan ScanSt.start ⟨ [], r, rs ⟩
        ('"' :: (escQuotes f.data ++ '"' :: rest)) =
      runScan ScanSt.inF ⟨ [], r, rs ⟩ (escQuotes f.data ++ '"' :: rest) := rfl
  rw [h1, runScan_escQuotes]
  rfl

/-- Scanning one complete record (fields, then a newline) appends that
record to the output and returns to the start state. -/
theorem runScan_record (fs : List String) (hfs : fs ≠ []) (r0 : List String)
    (rs : List (List String)) (rest : List Char) :
    runScan ScanSt.start ⟨ [], r0, rs ⟩ (fieldsChars fs ++ '\n' :: rest) =
      runScan ScanSt.start ⟨ [], [], rs ++ [ r0 ++ fs ] ⟩ rest := by
  induction fs generalizing r0 with
  | nil => exact absurd rfl hfs
  | cons f fs ih =>
      cases fs with
      | nil =>
          rw [show fieldsChars [ f ] = quoteFieldChars f from rfl]
          rw [runScan_quoteField]
          rfl
      | cons g gs =>
          rw [show fieldsChars (f :: g :: gs) =
              quoteFieldChars f ++ (',' :: fieldsChars (g :: gs)) from rfl]
          rw [List.append_assoc, runScan_quoteField]
          rw [List.cons_append]
          have h1 : runScan ScanSt.afterQ ⟨ f.data, r0, rs ⟩
                (',' :: (fieldsChars (g :: gs) ++ '\n' :: rest)) =
              runScan ScanSt.start ⟨ [], r0 ++ [ f ], rs ⟩
                (fieldsChars (g :: gs) ++ '\n' :: rest) := rfl
          rw [h1, ih (by simp) (r0 ++ [ f ])]
          simp

/-- Scanning a whole CSV text made of nonempty records accepts and
returns exactly those records. -/
theorem runScan_csv (rows : List (List String))
    (h : ∀ rw ∈ rows, rw ≠ []) (rs : List (List String)) :
    runScan ScanSt.start ⟨ [], [], rs ⟩ (csvChars rows) =
      some (ScanSt.start, ⟨ [], [], rs ++ rows ⟩) := by
  induction rows generalizing rs with
  | nil => simp [csvChars, runScan]
  | cons rw rws ih =>
      rw [show csvChars (rw :: rws) = fieldsChars rw ++ '\n' :: csvChars rws from rfl]
      rw [runScan_record rw (h rw (List.mem_cons_self rw rws)) [] rs (csvChars rws)]
      rw [ih fun x hx => h x (List.mem_cons_of_mem _ hx)]
      simp

/-- Round trip of the quote-all CSV convention: parsing a written table of
nonempty records gives those records back verbatim. -/
theorem parseCsv_writeCsv (rows : List (List String))
    (h : ∀ rw ∈ rows, rw ≠ []) :
    parseCsv (writeCsvString rows) = some rows := by
  unfold parseCsv writeCsvString
  rw [show (String.mk (csvChars rows)).data = csvChars rows from rfl]
  rw [runScan_csv rows h []]
  simp

/-- The fields of `finishIngest` fit together: the materialized CSV is the
written form of the returned table, the column list is its header, the
profile records the requested size tier, and a non-large result is the
cleaned input. -/
theorem finishIngest_shape (df0 : List Column) (mb : ℚ) (lg : Bool) :
    (finishIngest df0 mb lg).temp_csv = writeCsvTable (finishIngest df0 mb lg).table ∧
      (finishIngest df0 mb lg).columns = (finishIngest df0 mb lg).table.map Column.name ∧
      (finishIngest df0 mb lg).info.is_large = lg ∧
      (lg = false → (finishIngest df0 mb lg).table = cleanColumns df0) := by
  cases lg <;> simp [finishIngest]

/-- Any successful ingestion materializes exactly the returned in-memory
table, returns its header as the column list, and — when not large —
returns the cleaned parse of the upload. -/
theorem preprocess_shape (f : UploadedFile) (r : IngestResult)
    (hp : preprocess_and_save f = some r) :
    r.temp_csv = writeCsvTable r.table ∧ r.columns = r.table.map Column.name ∧
      (r.info.is_large = false → r.table = cleanColumns f.cols) := by
  unfold preprocess_and_save at hp
  split at hp
  · obtain rfl := Option.some.inj hp
    refine ⟨ rfl, rfl, fun h => ?_ ⟩
    have hb : decide ((f.sizeBytes : ℚ) / (1024 * 1024) > 50) = false := h
    simp [finishIngest, hb]
  · split at hp
    · obtain rfl := Option.some.inj hp
      refine ⟨ rfl, rfl, fun h => ?_ ⟩
      have hb : (decide ((f.sizeBytes : ℚ) / (1024 * 1024) > 50)
          || decide (nRows f.cols > 10000)) = false := h
      simp [finishIngest, hb]
    · exact absurd hp (by simp)

/-- Claim C2: for every non-large ingestion, re-reading the materialized CSV
with the same quote-all convention reproduces the returned column names
and every row's rendered values exactly. -/
theorem C2_csv_roundtrip (f : UploadedFile) (r : IngestResult)
    (hp : preprocess_and_save f = some r)
    (hnl : r.info.is_large = false)
    (hne : r.table ≠ []) :
    parseCsv r.temp_csv = some (r.columns :: tableRows r.table) := by
  obtain ⟨htc, hcols, -⟩ := preprocess_shape f r hp
  rw [htc, hcols]
  unfold writeCsvTable
  apply parseCsv_writeCsv
  intro rw hrw
  rcases List.mem_cons.mp hrw with h | h
  · subst h
    simpa using hne
  · obtain ⟨i, -, rfl⟩ := List.mem_map.mp h
    simpa using hne

/-- Witness for C2: the small CSV with a quote, a comma and a null. -/
theorem C2_witness :
    preprocess_and_save wfile2 = some wres2 ∧ wres2.info.is_large = false ∧
      wres2.table ≠ [] ∧
      parseCsv wres2.temp_csv = some (wres2.columns :: tableRows wres2.table) :=
  ⟨ by decide, by decide, by decide,
    C2_csv_roundtrip wfile2 wres2 (by decide) (by decide) (by decide) ⟩

/-- Claim C3: for every spreadsheet (.xlsx) upload that parses to more than
10000 rows, the returned profile has `is_large = true`, whatever the
pre-load byte-size check said. -/
theorem C3_xlsx_rowcount_large (f : UploadedFile)
    (hx : endsWithStr f.name ".xlsx" = true)
    (hnc : endsWithStr f.name ".csv" = false)
    (hrows : 10000 < nRows f.cols) :
    ∃ r, preprocess_and_save f = some r ∧ r.info.is_large = true := by
  have hR : decide (nRows f.cols > 10000) = true := by
    rw [decide_eq_true_eq]
    exact hrows
  refine ⟨ finishIngest f.cols ((f.sizeBytes : ℚ) / (1024 * 1024))
      (decide ((f.sizeBytes : ℚ) / (1024 * 1024) > 50) || true), ?_, ?_ ⟩
  · simp [preprocess_and_save, hx, hnc, hR]
  · simp [finishIngest]

/-- Witness for C3: a 1000-byte spreadsheet parsing to 10001 rows. -/
theorem C3_witness :
    endsWithStr wfile3.name ".xlsx" = true ∧ 10000 < nRows wfile3.cols ∧
      ∃ r, preprocess_and_save wfile3 = some r ∧ r.info.is_large = true :=
  ⟨ by decide, by norm_num [ wfile3, nRows ],
    C3_xlsx_rowcount_large wfile3 (by decide) (by decide)
      (by norm_num [ wfile3, nRows ]) ⟩

/-- Claim C4: an upload whose name ends in neither `.csv` nor `.xlsx` produces
no result tuple at all. -/
theorem C4_unsupported_rejected (f : UploadedFile)
    (h1 : endsWithStr f.name ".csv" = false)
    (h2 : endsWithStr f.name ".xlsx" = false) :
    preprocess_and_save f = none := by
  simp [preprocess_and_save, h1, h2]

/-- Witness for C4: a `.json` upload. -/
theorem C4_witness :
    endsWithStr wfile4.name ".csv" = false ∧
      endsWithStr wfile4.name ".xlsx" = false ∧
      preprocess_and_save wfile4 = none :=
  ⟨ by decide, by decide, C4_unsupported_rejected wfile4 (by decide) (by decide) ⟩

/-- Claim C10 counterexample: on a 52428801-byte spreadsheet parsing to 3 rows,
ingestion does return `is_large = true`, but the in-memory table it
returns is the complete parsed content (all 3 rows) — full in-memory
materialization is not skipped. -/
theorem C10_counterexample :
    (preprocess_and_save wfile10).map
        (fun r => (r.info.is_large, r.info.row_count, decide (r.table = wfile10.cols)))
      = some (true, 3, true) := by
  decide

/-- Claim C10 (amended): a spreadsheet upload over 50 MB is classified large
even when it parses to at most 10000 rows, and the normalization pass is
skipped — but the file is still fully parsed and materialized: the
returned table is exactly the parsed content and `row_count` is the full
parsed row count. -/
theorem C10_xlsx_size_large (f : UploadedFile)
    (hx : endsWithStr f.name ".xlsx" = true)
    (hnc : endsWithStr f.name ".csv" = false)
    (hsize : 52428800 < f.sizeBytes)
    (_hrows : nRows f.cols ≤ 10000) :
    ∃ r, preprocess_and_save f = some r ∧ r.info.is_large = true ∧
      r.table = f.cols ∧ r.info.row_count = nRows f.cols := by
  have hL : decide ((f.sizeBytes : ℚ) / (1024 * 1024) > 50) = true := by
    rw [decide_eq_true_eq]
    exact (large_decide_iff _).mpr hsize
  refine ⟨ finishIngest f.cols ((f.sizeBytes : ℚ) / (1024 * 1024))
      (true || decide (nRows f.cols > 10000)), ?_, by simp [finishIngest],
      by simp [finishIngest], by simp [finishIngest] ⟩
  simp [preprocess_and_save, hx, hnc, hL]

/-- Witness for C10's amended statement, at the same 3-row spreadsheet. -/
theorem C10_witness :
    endsWithStr wfile10.name ".xlsx" = true ∧ 52428800 < wfile10.sizeBytes ∧
      nRows wfile10.cols ≤ 10000 ∧
      ∃ r, preprocess_and_save wfile10 = some r ∧ r.info.is_large = true ∧
        r.table = wfile10.cols ∧ r.info.row_count = nRows wfile10.cols :=
  ⟨ by decide, by decide, by decide,
    C10_xlsx_size_large wfile10 (by decide) (by decide) (by decide) (by decide) ⟩

/-- Rounding zero to two decimals gives zero. -/
theorem roundTo2_zero : roundTo2 0 = 0 := by decide

/-- Rounding one hundred to two decimals gives one hundred. -/
theorem roundTo2_hundred : roundTo2 100 = 100 := by decide

/-- Claim C5: every column-inventory row's null percentage is
`round(100 * nulls / rows, 2)`, with the edge cases: no nulls renders
`0.0`, all nulls renders `100.0`. -/
theorem C5_null_percentage (df : List Column) (c : Column) (hc : c ∈ df)
    (hn : 0 < nRows df) :
    colInfoRow (nRows df) c ∈ colInfoRows df ∧
      (colInfoRow (nRows df) c).nullPct =
        roundTo2 (100 * (nullCount c : ℚ) / (nRows df : ℚ)) ∧
      (nullCount c = 0 → (colInfoRow (nRows df) c).nullPct = 0) ∧
      (nullCount c = nRows df → (colInfoRow (nRows df) c).nullPct = 100) := by
  refine ⟨ List.mem_map_of_mem _ hc, ?_, ?_, ?_ ⟩
  · show roundTo2 ((nullCount c : ℚ) / (nRows df : ℚ) * 100) = _
    congr 1
    ring
  · intro h
    show roundTo2 ((nullCount c : ℚ) / (nRows df : ℚ) * 100) = 0
    rw [h]
    norm_num [roundTo2_zero]
  · intro h
    show roundTo2 ((nullCount c : ℚ) / (nRows df : ℚ) * 100) = 100
    rw [h, div_self (Nat.cast_ne_zero.mpr hn.ne'), one_mul, roundTo2_hundred]

/-- Witness for C5: one numeric column with 2 nulls out of 4 rows. -/
theorem C5_witness :
    wcol5 ∈ wdf5 ∧ 0 < nRows wdf5 ∧
      (colInfoRow (nRows wdf5) wcol5 ∈ colInfoRows wdf5 ∧
        (colInfoRow (nRows wdf5) wcol5).nullPct =
          roundTo2 (100 * (nullCount wcol5 : ℚ) / (nRows wdf5 : ℚ)) ∧
        (nullCount wcol5 = 0 → (colInfoRow (nRows wdf5) wcol5).nullPct = 0) ∧
        (nullCount wcol5 = nRows wdf5 →
          (colInfoRow (nRows wdf5) wcol5).nullPct = 100)) :=
  ⟨ by decide, by decide, C5_null_percentage wdf5 wcol5 (by decide) (by decide) ⟩

/-- Claim C6: the missing-value chart section is rendered iff the total null
count over all columns is strictly positive. -/
theorem C6_missing_chart_iff (df : List Column) (info : DatasetProfile) :
    ReportSection.missingChart ∈ reportSections df info ↔ 0 < totalNulls df := by
  by_cases h1 : 0 < totalNulls df <;>
    by_cases h2 : numericCols df ≠ [] <;>
      by_cases h3 : 1 < (numericCols df).length <;>
        by_cases h4 : categoricalCols df ≠ [] <;>
          simp [reportSections, h1, h2, h3, h4]

/-- Claim C7: the correlation heatmap section is rendered iff the table has
strictly more than one numeric column. -/
theorem C7_corr_heatmap_iff (df : List Column) (info : DatasetProfile) :
    ReportSection.corrHeatmap ∈ reportSections df info ↔
      1 < (numericCols df).length := by
  by_cases h3 : 1 < (numericCols df).length
  · have h2 : numericCols df ≠ [] := by
      intro he
      rw [he] at h3
      simp at h3
    by_cases h1 : 0 < totalNulls df <;>
      by_cases h4 : categoricalCols df ≠ [] <;>
        simp [reportSections, h1, h2, h3, h4]
  · by_cases h1 : 0 < totalNulls df <;>
      by_cases h2 : numericCols df ≠ [] <;>
        by_cases h4 : categoricalCols df ≠ [] <;>
          simp [reportSections, h1, h2, h3, h4]

/-- A whole-column numeric coercion with any failing cell yields nothing
(`pd.to_numeric` raises before assigning). -/
theorem traverseNum_none (l : List Cell) (h : ∃ x ∈ l, toNumericCell x = none) :
    traverseNum l = none := by
  induction l with
  | nil => simp at h
  | cons c cs ih =>
      rcases h with ⟨x, hx, hfail⟩
      rcases List.mem_cons.mp hx with rfl | hx2
      · simp [traverseNum, hfail]
      · have hcs : traverseNum cs = none := ih ⟨x, hx2, hfail⟩
        rw [show traverseNum (c :: cs) =
            (match toNumericCell c, traverseNum cs with
              | some c2, some cs2 => some (c2 :: cs2)
              | _, _ => none) from rfl]
        rw [hcs]
        cases toNumericCell c <;> rfl

/-- Claim C8: in a non-large ingestion, a text column (post quote-escape) whose
name does not contain `date` and on which numeric coercion fails at some
cell passes through coercion completely unchanged, and appears verbatim in
the returned table. -/
theorem C8_no_partial_coercion (f : UploadedFile) (r : IngestResult)
    (hp : preprocess_and_save f = some r) (hnl : r.info.is_large = false)
    (c : Column) (hc : c ∈ f.cols.map escapeStep)
    (ht : c.ctype = ColType.text)
    (hd : containsSub dateProbe (lowerChars c.name.data) = false)
    (hfail : ∃ x ∈ c.cells, toNumericCell x = none) :
    coerceColumn c = c ∧ c ∈ r.table := by
  have hcc : coerceColumn c = c := by
    unfold coerceColumn
    rw [hd]
    simp only [Bool.false_eq_true, if_false, ht, if_true]
    rw [traverseNum_none c.cells hfail]
  refine ⟨ hcc, ?_ ⟩
  obtain ⟨-, -, h3⟩ := preprocess_shape f r hp
  rw [h3 hnl]
  unfold cleanColumns
  rw [← hcc]
  exact List.mem_map_of_mem _ hc

/-- Witness for C8: the column `label` with cells `abc` and `1`. -/
theorem C8_witness :
    preprocess_and_save wfile8 = some wres8 ∧ wres8.info.is_large = false ∧
      wcol8 ∈ wfile8.cols.map escapeStep ∧ wcol8.ctype = ColType.text ∧
      containsSub dateProbe (lowerChars wcol8.name.data) = false ∧
      (∃ x ∈ wcol8.cells, toNumericCell x = none) ∧
      coerceColumn wcol8 = wcol8 ∧ wcol8 ∈ wres8.table :=
  ⟨ by decide, by decide, by decide, by decide, by decide, by decide,
    C8_no_partial_coercion wfile8 wres8 (by decide) (by decide) wcol8
      (by decide) (by decide) (by decide) (by decide) ⟩

/-- Columns whose cells are all strings contain no nulls. -/
theorem nullCount_all_str (c : Column)
    (h : ∀ x ∈ c.cells, ∃ s, x = Cell.str s) : nullCount c = 0 := by
  unfold nullCount
  rw [List.countP_eq_zero]
  intro a ha
  obtain ⟨s, rfl⟩ := h a ha
  simp

/-- After cleaning, every column that is still text-typed has all-string
cells: the escape step stringified it (nulls became the string `nan`) and
the failed numeric coercion left it unchanged. -/
theorem clean_text_all_str (c0 : Column)
    (ht : (coerceColumn (escapeStep c0)).ctype = ColType.text) :
    ∀ x ∈ (coerceColumn (escapeStep c0)).cells, ∃ s, x = Cell.str s := by
  by_cases hd : containsSub dateProbe (lowerChars (escapeStep c0).name.data) = true
  · exfalso
    unfold coerceColumn at ht
    rw [if_pos hd] at ht
    simp at ht
  · have hd2 : containsSub dateProbe (lowerChars (escapeStep c0).name.data) = false :=
      Bool.eq_false_iff.mpr hd
    by_cases he : (escapeStep c0).ctype = ColType.text
    · cases htr : traverseNum (escapeStep c0).cells with
      | some cs =>
          exfalso
          have hcoe : coerceColumn (escapeStep c0) =
              { escapeStep c0 with ctype := ColType.numeric, cells := cs } := by
            unfold coerceColumn
            rw [hd2]
            simp only [Bool.false_eq_true, if_false]
            rw [if_pos he, htr]
          rw [hcoe] at ht
          simp at ht
      | none =>
          have hcoe : coerceColumn (escapeStep c0) = escapeStep c0 := by
            unfold coerceColumn
            rw [hd2]
            simp only [Bool.false_eq_true, if_false]
            rw [if_pos he, htr]
          rw [hcoe]
          have hc0 : c0.ctype = ColType.text := by
            by_contra hc0
            have hid : escapeStep c0 = c0 := by
              unfold escapeStep
              rw [if_neg hc0]
            rw [hid] at he
            exact hc0 he
          have hesc : escapeStep c0 =
              { c0 with cells := c0.cells.map fun x => Cell.str (strEscQuotes (cellPyStr x)) } := by
            unfold escapeStep
            rw [if_pos hc0]
          rw [hesc]
          intro x hx
          obtain ⟨y, -, rfl⟩ := List.mem_map.mp hx
          exact ⟨_, rfl⟩
    · exfalso
      have hcoe : coerceColumn (escapeStep c0) = escapeStep c0 := by
        unfold coerceColumn
        rw [hd2]
        simp only [Bool.false_eq_true, if_false]
        rw [if_neg he]
      rw [hcoe] at ht
      exact he ht

/-- Text columns contribute nothing to the total null count. -/
theorem sum_nulls_filter (df : List Column)
    (h : ∀ c ∈ df, c.ctype = ColType.text → nullCount c = 0) :
    totalNulls df =
      ((df.filter fun c => decide (c.ctype ≠ ColType.text)).map nullCount).sum := by
  induction df with
  | nil => rfl
  | cons c cs ih =>
      have htail := ih fun x hx => h x (List.mem_cons_of_mem _ hx)
      have hhead : totalNulls (c :: cs) = nullCount c + totalNulls cs := by
        simp [totalNulls]
      by_cases hct : c.ctype = ColType.text
      · have hfc : List.filter (fun x => decide (x.ctype ≠ ColType.text)) (c :: cs)
            = List.filter (fun x => decide (x.ctype ≠ ColType.text)) cs := by
          simp [List.filter_cons, hct]
        rw [hhead, hfc, h c (List.mem_cons_self c cs) hct, htail, Nat.zero_add]
      · have hfc : List.filter (fun x => decide (x.ctype ≠ ColType.text)) (c :: cs)
            = c :: List.filter (fun x => decide (x.ctype ≠ ColType.text)) cs := by
          simp [List.filter_cons, hct]
        rw [hhead, hfc, List.map_cons, List.sum_cons, htail]

/-- Claim C9: after a non-large ingestion, every still-text column of the
returned table contains zero nulls (the escape step stringified missing
values into the literal string `nan`), so text columns always report a
0.0 null percentage and never contribute to the missing-value total that
triggers the chart. -/
theorem C9_text_columns_no_nulls (f : UploadedFile) (r : IngestResult)
    (hp : preprocess_and_save f = some r) (hnl : r.info.is_large = false) :
    (∀ c ∈ r.table, c.ctype = ColType.text →
        nullCount c = 0 ∧ (colInfoRow (nRows r.table) c).nullPct = 0) ∧
      totalNulls r.table =
        ((r.table.filter fun c => decide (c.ctype ≠ ColType.text)).map
          nullCount).sum := by
  obtain ⟨-, -, h3⟩ := preprocess_shape f r hp
  have hmain : ∀ c ∈ r.table, c.ctype = ColType.text → nullCount c = 0 := by
    intro c hcmem hct
    rw [h3 hnl] at hcmem
    unfold cleanColumns at hcmem
    obtain ⟨e, he, rfl⟩ := List.mem_map.mp hcmem
    obtain ⟨c0, -, rfl⟩ := List.mem_map.mp he
    exact nullCount_all_str _ (clean_text_all_str c0 hct)
  refine ⟨ fun c hcmem hct => ⟨ hmain c hcmem hct, ?_ ⟩, sum_nulls_filter _ hmain ⟩
  show roundTo2 ((nullCount c : ℚ) / (nRows r.table : ℚ) * 100) = 0
  rw [hmain c hcmem hct]
  norm_num [roundTo2_zero]

/-- Witness for C9: a text column with a null and a numeric column with a
null; after cleaning the text column reports zero nulls. -/
theorem C9_witness :
    preprocess_and_save wfile9 = some wres9 ∧ wres9.info.is_large = false ∧
      ((∀ c ∈ wres9.table, c.ctype = ColType.text →
          nullCount c = 0 ∧ (colInfoRow (nRows wres9.table) c).nullPct = 0) ∧
        totalNulls wres9.table =
          ((wres9.table.filter fun c => decide (c.ctype ≠ ColType.text)).map
            nullCount).sum) :=
  ⟨ by decide, by decide,
    C9_text_columns_no_nulls wfile9 wres9 (by decide) (by decide) ⟩

end QueryPilot
